import Mathlib

/-!
# NCAA Survivor Pool — verification of the Pick Ledger Reconciler

Shallow embedding of the reconciliation/validation logic of the survivor-pool
web application (`src/app/page.tsx`, `src/unnamed/part_001`,
`src/unnamed/part_002`).  JavaScript strings are modelled as Lean `String`
(all roster and team data is ASCII, so `Char.toLower`/`Char.toUpper` coincide
with JS `toLowerCase`/`toUpperCase` on the relevant characters); the
wall-clock-dependent pieces (`new Date()` arithmetic, the noon-ET lock
comparison) are passed in as explicit parameters.
-/

namespace Survivor

/-! ## Basic character/string helpers (JS semantics, ASCII fragment) -/

/-- JS `\s` for the ASCII characters that occur in this app's data. -/
def wsChar (c : Char) : Bool :=
  c == ' ' || c == '\t' || c == '\n' || c == '\r'

/-- `String.toLowerCase()` (ASCII). -/
def strLower (s : String) : String := ⟨s.data.map Char.toLower⟩

/-- `String.toUpperCase()` (ASCII). -/
def strUpper (s : String) : String := ⟨s.data.map Char.toUpper⟩

/-- `String.trim()`. -/
def trimList (l : List Char) : List Char :=
  ((l.dropWhile wsChar).reverse.dropWhile wsChar).reverse

def trimStr (s : String) : String := ⟨trimList s.data⟩

/-- `s.slice(0, n)` on a char list. -/
def takeStr (s : String) (n : Nat) : String := ⟨s.data.take n⟩

/-- `s.slice(n)` on a char list. -/
def dropStr (s : String) (n : Nat) : String := ⟨s.data.drop n⟩

/-- `a.isPrefixOf b` on char lists, written out so every proof can unfold it. -/
def listIsPref : List Char → List Char → Bool
  | [], _ => true
  | _ :: _, [] => false
  | a :: as, b :: bs => a == b && listIsPref as bs

/-- `sub` occurs as a contiguous run inside `l` (JS `String.includes`). -/
def listIsSub (sub : List Char) : List Char → Bool
  | [] => listIsPref sub []
  | c :: cs => listIsPref sub (c :: cs) || listIsSub sub cs

/-- JS `s.includes(sub)`. -/
def strIncludes (s sub : String) : Bool := listIsSub sub.data s.data

/-- Accumulator pass for `tokens`: `acc` holds the currently open token in
reverse order. -/
def tokensAux : List Char → List Char → List (List Char)
  | [], acc => if acc.isEmpty then [] else [acc.reverse]
  | c :: cs, acc =>
    if wsChar c then
      if acc.isEmpty then tokensAux cs [] else acc.reverse :: tokensAux cs []
    else tokensAux cs (c :: acc)

/-- Splitting a string into its maximal whitespace-free runs: the observable
behaviour of JS `full.trim().split(/\s+/)` (the JS corner case of the empty
string, which yields `[""]`, also yields fewer than two tokens here). -/
def tokens (l : List Char) : List (List Char) := tokensAux l []

def splitWs (s : String) : List String := (tokens s.data).map String.mk

/-! ## Name Normalizer (`getShortName`, src/app/page.tsx lines 674-678,
src/unnamed/part_001 lines 135-141, src/unnamed/part_002 lines 55-59) -/

/-- JS `` `${s.charAt(0).toUpperCase() + s.slice(1).toLowerCase()}` ``. -/
def capToken (s : String) : String :=
  strUpper (takeStr s 1) ++ strLower (dropStr s 1)

/-- `getShortName` from the source:
`const [first, ...rest] = full.trim().split(/\s+/);`
`if (rest.length === 0) return full;`
`return first capitalized ++ " " ++ rest[rest.length-1][0].toUpperCase()`. -/
def getShortName (full : String) : String :=
  match tokens full.data with
  | [] => full
  | [_] => full
  | first :: r :: rs =>
    capToken ⟨first⟩ ++ " " ++ strUpper (takeStr ⟨(r :: rs).getLastD []⟩ 1)

/-- Modelled from the spec's §4.1 algorithm text, for comparison with the
source's `getShortName`: "split on whitespace; take the first token,
lowercase it then uppercase its first character; take the last token's first
character, uppercased; join with a single space." -/
def specShortName (full : String) : String :=
  let toks := splitWs full
  let first := strLower (toks.headD "")
  let lastTok := toks.getLastD ""
  strUpper (takeStr first 1) ++ dropStr first 1 ++ " " ++
    strUpper (takeStr lastTok 1)

/-- JS `s.split(' ')`: split on every single space, keeping empty segments
(always at least one segment). -/
def splitSpacesAux : List Char → List Char → List (List Char)
  | [], acc => [acc.reverse]
  | c :: cs, acc =>
    if c == ' ' then acc.reverse :: splitSpacesAux cs []
    else splitSpacesAux cs (c :: acc)

def splitSpaces (s : String) : List (List Char) := splitSpacesAux s.data []

/-- JS `t[0]` of a segment, as rendered by a template literal: the first
character, or the string "undefined" when the segment is empty. -/
def jsCharAtZero (l : List Char) : String :=
  match l with
  | [] => "undefined"
  | c :: _ => ⟨[c]⟩

/-- The display-only `getShortName` of the first page variant
(src/app/page.tsx lines 195-198):
`const p = full.split(' '); return` `` `${p[0]} ${p[p.length - 1][0]}` ``.
It splits on single spaces without trimming, performs no case
normalization, and has no fewer-than-two-tokens guard. -/
def getShortNameA (full : String) : String :=
  let p := splitSpaces full
  ⟨p.headD []⟩ ++ " " ++ jsCharAtZero (p.getLastD [])

/-! ## Team Name Matcher (`normalizeTeamName`, src/app/page.tsx lines 670-672) -/

/-- Characters kept by the regex `[^a-z0-9]` removal (run after lowercasing). -/
def keptChar (c : Char) : Bool :=
  ('a' ≤ c && c ≤ 'z') || ('0' ≤ c && c ≤ '9')

/-- One global left-to-right pass of `.replace(/state/gi, 'st')` over an
already-lowercased character list (first match wins, scanning resumes after
the replacement). -/
def replaceStateList : List Char → List Char
  | 's' :: 't' :: 'a' :: 't' :: 'e' :: rest => 's' :: 't' :: replaceStateList rest
  | c :: cs => c :: replaceStateList cs
  | [] => []

/-- `normalizeTeamName` from the source:
`name.toLowerCase().replace(/[^a-z0-9]/g, '').replace(/\s+/g, '').replace(/state/gi, 'st')`
(the middle `\s+` pass is a no-op because whitespace was already removed by
the `[^a-z0-9]` pass, and after lowercasing the case-insensitive `state`
match is the literal `state`). -/
def normalizeTeamName (name : String) : String :=
  ⟨replaceStateList (((strLower name).data.filter keptChar))⟩

/-- The team match actually used by the Outcome Resolver's game lookup
(src/app/page.tsx lines 868-871 and 1505-1507, src/unnamed/part_002 lines
244-247): the normalized live feed name must contain the normalized stored
pick, `normalizeTeamName(liveName).includes(normalizeTeamName(storedPick))`. -/
def teamsMatch (storedPick liveTeamName : String) : Bool :=
  strIncludes (normalizeTeamName liveTeamName) (normalizeTeamName storedPick)

/-- Modelled from the spec's §4.2 contract, for comparison with the code's
lookup matcher: "match succeeds if either normalized string contains the
other (bidirectional substring containment)". -/
def teamsMatchSpec (a b : String) : Bool :=
  strIncludes (normalizeTeamName a) (normalizeTeamName b) ||
  strIncludes (normalizeTeamName b) (normalizeTeamName a)

/-- One left-to-right pass of `.replace(/ohio/gi, 'oh')` over an
already-lowercased character list. -/
def replaceOhioList : List Char → List Char
  | 'o' :: 'h' :: 'i' :: 'o' :: rest => 'o' :: 'h' :: replaceOhioList rest
  | c :: cs => c :: replaceOhioList cs
  | [] => []

/-- One left-to-right pass of `.replace(/northern/gi, 'n')`. -/
def replaceNorthernList : List Char → List Char
  | 'n' :: 'o' :: 'r' :: 't' :: 'h' :: 'e' :: 'r' :: 'n' :: rest =>
    'n' :: replaceNorthernList rest
  | c :: cs => c :: replaceNorthernList cs
  | [] => []

/-- One left-to-right pass of `.replace(/southern/gi, 's')`. -/
def replaceSouthernList : List Char → List Char
  | 's' :: 'o' :: 'u' :: 't' :: 'h' :: 'e' :: 'r' :: 'n' :: rest =>
    's' :: replaceSouthernList rest
  | c :: cs => c :: replaceSouthernList cs
  | [] => []

/-- One left-to-right pass of `.replace(/miami oh/gi, 'miamioh')` (its
pattern contains a space, so it can never match the space-free string the
earlier passes produce; kept for fidelity). -/
def replaceMiamiOhList : List Char → List Char
  | 'm' :: 'i' :: 'a' :: 'm' :: 'i' :: ' ' :: 'o' :: 'h' :: rest =>
    'm' :: 'i' :: 'a' :: 'm' :: 'i' :: 'o' :: 'h' :: replaceMiamiOhList rest
  | c :: cs => c :: replaceMiamiOhList cs
  | [] => []

/-- The scheduled page variant's own `normalizeTeamName`
(src/app/page.tsx lines 1242-1251): lowercase, strip `[^a-z0-9]`, then the
replacement passes `state`→`st`, `ohio`→`oh`, `northern`→`n`, `southern`→`s`,
`miami oh`→`miamioh`, each a full pass over the previous pass's output. -/
def normalizeTeamNameD (name : String) : String :=
  ⟨replaceMiamiOhList (replaceSouthernList (replaceNorthernList (replaceOhioList
    (replaceStateList ((strLower name).data.filter keptChar)))))⟩

/-! ## Data model (§3; `interface Pick` / `interface Game` in the source) -/

inductive PickStatus where
  | pending
  | won
  | eliminated
deriving DecidableEq

/-- One stored pick document.  `timestamp`/`resultAt` are the server-assigned
write timestamps (abstracted to `Option Nat`); `createdAt` is the
client-supplied ISO string. -/
structure Pick where
  name : String
  team : String
  round : String
  timestamp : Option Nat := none
  createdAt : Option String := none
  status : Option PickStatus := none
  resultAt : Option Nat := none
deriving DecidableEq

structure TeamSide where
  name : String
  score : String
deriving DecidableEq

/-- One game from the scoreboard feed (rank/clock/startTime are irrelevant to
the reconciliation logic and omitted). -/
structure Game where
  gameId : String
  homeTeam : TeamSide
  awayTeam : TeamSide
  status : String
  date : String
deriving DecidableEq

/-- Decimal accumulator for `scoreNum`. -/
def digitsToNat : List Char → Nat → Nat
  | [], acc => acc
  | c :: cs, acc => digitsToNat cs (acc * 10 + (c.toNat - 48))

/-- JS `Number(score) || 0` for the score strings this feed produces:
non-empty decimal digit strings parse as decimal; anything else (the `"—"`
placeholder, the empty string) yields 0 (`NaN || 0` and `Number('') || 0`
are both 0). -/
def scoreNum (s : String) : Nat :=
  if s.data.isEmpty || !s.data.all Char.isDigit then 0 else digitsToNat s.data 0

/-! ## Outcome Resolver (src/app/page.tsx lines 856-895 "main" variant, also
src/unnamed/part_002 lines 231-272; and lines 1494-1541 "scheduled" variant
driven by the `pickDates` table) -/

/-- The game-lookup predicate shared by both resolver variants
(src/app/page.tsx lines 868-871 and 1505-1507): a game on the pick's date
whose home or away normalized name contains the normalized pick. -/
def gameMatches (team dateStr : String) (g : Game) : Bool :=
  g.date == dateStr &&
    (teamsMatch team g.homeTeam.name || teamsMatch team g.awayTeam.name)

/-- `status.toLowerCase().includes('final') || ...includes('end')`
(src/app/page.tsx line 875). -/
def isFinalMain (status : String) : Bool :=
  strIncludes (strLower status) "final" || strIncludes (strLower status) "end"

/-- The body of the main resolver loop after the pending guard
(src/app/page.tsx lines 863-891), as a function of the pick's round and team.
`dateOf` abstracts the wall-clock date computation
`new Date(); setDate(getDate() + (round offset)); toLocaleDateString('en-CA')`. -/
def resolveCoreMain (dateOf : String → String) (games : List Game)
    (round team : String) : Option PickStatus :=
  match games.find? (gameMatches team (dateOf round)) with
  | none => none
  | some game =>
    if !isFinalMain game.status then none
    else
      let h := scoreNum game.homeTeam.score
      let a := scoreNum game.awayTeam.score
      if h == 0 && a == 0 then none
      else
        let isHome := teamsMatch team game.homeTeam.name
        let won := if isHome then decide (a < h) else decide (h < a)
        some (if won then .won else .eliminated)

/-- One iteration of the main resolver (src/app/page.tsx lines 860-891):
the guard `if (pick.status && pick.status !== 'pending') return;` skips picks
already resolved to `won` or `eliminated`; `none` means no status update is
emitted for this pick. -/
def resolveOneMain (dateOf : String → String) (games : List Game)
    (p : Pick) : Option PickStatus :=
  match p.status with
  | some .won => none
  | some .eliminated => none
  | _ => resolveCoreMain dateOf games p.round p.team

/-- All (pick, new status) updates emitted by one main-resolver pass over the
pick list (the source iterates users then picks; the emitted updates are the
same flat list). -/
def resolveRunMain (dateOf : String → String) (games : List Game)
    (picks : List Pick) : List (Pick × PickStatus) :=
  picks.filterMap fun p => (resolveOneMain dateOf games p).map (p, ·)

/-- The effect on one pick of applying a main-resolver pass: an emitted
`(pick, st)` update writes `status: st` (plus a fresh `resultAt`) to that
pick's document (src/app/page.tsx lines 885-892).  `resultTs` abstracts
`serverTimestamp()`. -/
def applyPickMain (dateOf : String → String) (games : List Game)
    (resultTs : Nat) (p : Pick) : Pick :=
  match resolveOneMain dateOf games p with
  | some st => { p with status := some st, resultAt := some resultTs }
  | none => p

def applyRunMain (dateOf : String → String) (games : List Game)
    (resultTs : Nat) (picks : List Pick) : List Pick :=
  picks.map (applyPickMain dateOf games resultTs)

/-- The `pickDates` table (src/app/page.tsx lines 1376-1383). -/
structure DayInfo where
  day : Nat
  label : String
  date : String
deriving DecidableEq

def pickDates : List DayInfo :=
  [⟨1, "Mon Feb 24", "2026-02-24"⟩,
   ⟨2, "Tue Feb 25", "2026-02-25"⟩,
   ⟨3, "Wed Feb 26", "2026-02-26"⟩,
   ⟨4, "Thu Feb 27", "2026-02-27"⟩,
   ⟨5, "Fri Feb 28", "2026-02-28"⟩,
   ⟨6, "Sat Mar 1", "2026-03-01"⟩]

/-- `statusLower.includes('final') || ...('end') || ...('complete')`
(src/app/page.tsx lines 1511-1512). -/
def isFinalSched (status : String) : Bool :=
  strIncludes (strLower status) "final" || strIncludes (strLower status) "end" ||
    strIncludes (strLower status) "complete"

/-- The scheduled variant's game-lookup predicate (src/app/page.tsx lines
1505-1507): same one-directional containment shape as the main lookup, but
with that variant's own normalizer. -/
def gameMatchesSched (team dateStr : String) (g : Game) : Bool :=
  g.date == dateStr &&
    (strIncludes (normalizeTeamNameD g.homeTeam.name) (normalizeTeamNameD team) ||
     strIncludes (normalizeTeamNameD g.awayTeam.name) (normalizeTeamNameD team))

/-- Loop body of the scheduled-variant resolver (src/app/page.tsx lines
1500-1539) for a pick with the given round and team.  Note the side
determination at line 1523 is bidirectional, unlike the lookup. -/
def resolveCoreSched (games : List Game) (round team : String) :
    Option PickStatus :=
  match pickDates.find? (fun d => "Day " ++ toString d.day == round) with
  | none => none
  | some dayInfo =>
    match games.find? (gameMatchesSched team dayInfo.date) with
    | none => none
    | some game =>
      if !isFinalSched game.status then none
      else
        let homeScore := scoreNum game.homeTeam.score
        let awayScore := scoreNum game.awayTeam.score
        if homeScore == 0 && awayScore == 0 then none
        else
          let np := normalizeTeamNameD team
          let homeNorm := normalizeTeamNameD game.homeTeam.name
          let isHome := strIncludes homeNorm np || strIncludes np homeNorm
          let won := (isHome && decide (awayScore < homeScore)) ||
                     (!isHome && decide (homeScore < awayScore))
          some (if won then .won else .eliminated)

/-- One iteration of the scheduled resolver: the
`alivePicks = user.picks.filter(p => p.status !== 'eliminated')` filter
(src/app/page.tsx line 1498) skips only eliminated picks. -/
def resolveOneSched (games : List Game) (p : Pick) : Option PickStatus :=
  if p.status = some .eliminated then none
  else resolveCoreSched games p.round p.team

def resolveRunSched (games : List Game) (picks : List Pick) :
    List (Pick × PickStatus) :=
  picks.filterMap fun p => (resolveOneSched games p).map (p, ·)

def applyPickSched (games : List Game) (resultTs : Nat) (p : Pick) : Pick :=
  match resolveOneSched games p with
  | some st => { p with status := some st, resultAt := some resultTs }
  | none => p

def applyRunSched (games : List Game) (resultTs : Nat) (picks : List Pick) :
    List Pick :=
  picks.map (applyPickSched games resultTs)

/-! ## Pick Validator (`handleSubmit` validation prefix,
src/app/page.tsx lines 897-937 "main" variant and src/unnamed/part_001
lines 294-337 "test-week" variant) -/

/-- The hardcoded 20-entry roster (src/app/page.tsx lines 663-668,
identical lists in src/unnamed/part_001 lines 112-133 and part_002 40-45). -/
def participantFullNames : List String :=
  ["Patrick Gifford", "Garret Gotaas", "Mike Schwartz", "Derrick Defever",
   "Matt Syzmanski", "Connor Giroux", "Nick Dahl", "Chris Canada",
   "Brian Burger", "Rich Deward", "Peter Murray", "Spenser Pawlik",
   "Nick Mowid", "James Conway", "Tom Strobel", "Zak Burns", "Alex McAdoo",
   "Sean Falvey", "Tyler Decoster", "Mike Gallagher"]

/-- The store snapshot grouped by submitter: homes the picks of one
ShortName (the `grouped` map in the snapshot listener). -/
def picksFor (picks : List Pick) (n : String) : List Pick :=
  picks.filter fun p => p.name == n

/-- `status: picks.some(p => p.status === 'eliminated') ? 'eliminated' : 'alive'`
for the given ShortName (src/app/page.tsx line 843). -/
def isEliminatedUser (picks : List Pick) (n : String) : Bool :=
  (picksFor picks n).any fun p => p.status == some .eliminated

/-- `usedTeams = me.picks.map(p => p.team).filter(Boolean)`
(src/app/page.tsx lines 850-851). -/
def usedTeamsOf (picks : List Pick) (n : String) : List String :=
  ((picksFor picks n).map Pick.team).filter fun t => t ≠ ""

/-- Derived ShortName of the submission form (src/app/page.tsx line 782):
`` `${cap(firstName.trim())} ${lastInitial.trim().toUpperCase()}`.trim() ``. -/
def mainShortName (firstName lastInitial : String) : String :=
  trimStr (capToken (trimStr firstName) ++ " " ++ strUpper (trimStr lastInitial))

inductive RejectReason where
  | malformedName
  | unrecognizedName
  | alreadyEliminated
  | windowLocked
  | teamAlreadyUsed
deriving DecidableEq

/-- Result of the validation prefix of `handleSubmit`: an accepted pick
(carrying the ShortName, team and round label handed to persistence), the
admin-mode bypass, or the rejection reason of the first failing check. -/
inductive SubmitResult where
  | accept (name team round : String)
  | adminMode
  | reject (r : RejectReason)
deriving DecidableEq

def SubmitResult.isAccept : SubmitResult → Bool
  | .accept _ _ _ => true
  | _ => false

/-- The submission form state plus the context the checks read.  `locked`
abstracts the wall-clock comparison `new Date() >= noon` for the selected
day; `picks` is the current store snapshot. -/
structure SubmitInput where
  firstName : String
  lastInitial : String
  selectedTeam : String
  currentDay : Nat
  locked : Bool
  picks : List Pick
deriving DecidableEq

/-- Validation prefix of the main `handleSubmit` (src/app/page.tsx lines
897-940), one if-chain per source check, in source order:
malformed name, admin bypass, roster membership, eliminated, lock window,
team already used. -/
def validateSubmissionMain (roster : List String) (inp : SubmitInput) :
    SubmitResult :=
  if trimStr inp.firstName = "" ∨ inp.lastInitial.length ≠ 1 then
    .reject .malformedName
  else
    let shortName := mainShortName inp.firstName inp.lastInitial
    if strLower shortName = "stanley s" then .adminMode
    else if !(roster.any fun f => getShortName f == shortName) then
      .reject .unrecognizedName
    else if isEliminatedUser inp.picks shortName then .reject .alreadyEliminated
    else if inp.locked then .reject .windowLocked
    else if (usedTeamsOf inp.picks shortName).contains inp.selectedTeam then
      .reject .teamAlreadyUsed
    else .accept shortName inp.selectedTeam ("Day " ++ toString inp.currentDay)

/-- `/^[A-Z]$/.test(s)`. -/
def isSingleUpper (s : String) : Bool :=
  match s.data with
  | [c] => 'A' ≤ c && c ≤ 'Z'
  | _ => false

/-- Validation prefix of the test-week `handleSubmit` (src/unnamed/part_001
lines 294-337), one if-chain per source check, in source order: malformed
name, admin bypass, roster membership, lock window, eliminated, team used.
Note this variant checks the lock window BEFORE the eliminated status. -/
def validateSubmissionTest (roster : List String) (inp : SubmitInput) :
    SubmitResult :=
  let trimmedFirst := trimStr inp.firstName
  let trimmedInitial := strUpper (trimStr inp.lastInitial)
  if trimmedFirst = "" ∨ trimmedInitial.length ≠ 1 ∨ !isSingleUpper trimmedInitial then
    .reject .malformedName
  else
    let capFirst := capToken trimmedFirst
    let shortName := capFirst ++ " " ++ trimmedInitial
    if strLower capFirst = "stanley" ∧ trimmedInitial = "S" then .adminMode
    else if !((roster.map getShortName).contains shortName) then
      .reject .unrecognizedName
    else if inp.locked then .reject .windowLocked
    else if isEliminatedUser inp.picks shortName then .reject .alreadyEliminated
    else if (usedTeamsOf inp.picks shortName).contains inp.selectedTeam then
      .reject .teamAlreadyUsed
    else .accept shortName inp.selectedTeam ("Day " ++ toString inp.currentDay)

/-- First failing rule of an ordered rule list: each entry pairs "this rule
fails" with its rejection reason. -/
def firstFailingRule : List (Bool × RejectReason) → Option RejectReason
  | [] => none
  | (fails, r) :: rest => if fails then some r else firstFailingRule rest

/-- Reject with the first failing rule if any, otherwise accept. -/
def applyFirstFailing (o : Option RejectReason) (acc : SubmitResult) :
    SubmitResult :=
  match o with
  | some r => .reject r
  | none => acc

/-- Modelled from the claim's wording: the fixed validation order
MalformedName, (admin bypass before roster membership), UnrecognizedName,
AlreadyEliminated, WindowLocked, TeamAlreadyUsed — first failing rule wins —
evaluated over the main variant's check predicates. -/
def claimedOrderMain (roster : List String) (inp : SubmitInput) : SubmitResult :=
  if trimStr inp.firstName = "" ∨ inp.lastInitial.length ≠ 1 then
    .reject .malformedName
  else
    let shortName := mainShortName inp.firstName inp.lastInitial
    if strLower shortName = "stanley s" then .adminMode
    else
      applyFirstFailing
        (firstFailingRule
          [(!(roster.any fun f => getShortName f == shortName), .unrecognizedName),
           (isEliminatedUser inp.picks shortName, .alreadyEliminated),
           (inp.locked, .windowLocked),
           ((usedTeamsOf inp.picks shortName).contains inp.selectedTeam, .teamAlreadyUsed)])
        (.accept shortName inp.selectedTeam ("Day " ++ toString inp.currentDay))

/-- Modelled from the claim's wording, evaluated over the test-week variant's
check predicates (same claimed order: AlreadyEliminated before WindowLocked). -/
def claimedOrderTest (roster : List String) (inp : SubmitInput) : SubmitResult :=
  let trimmedFirst := trimStr inp.firstName
  let trimmedInitial := strUpper (trimStr inp.lastInitial)
  if trimmedFirst = "" ∨ trimmedInitial.length ≠ 1 ∨ !isSingleUpper trimmedInitial then
    .reject .malformedName
  else
    let capFirst := capToken trimmedFirst
    let shortName := capFirst ++ " " ++ trimmedInitial
    if strLower capFirst = "stanley" ∧ trimmedInitial = "S" then .adminMode
    else
      applyFirstFailing
        (firstFailingRule
          [(!((roster.map getShortName).contains shortName), .unrecognizedName),
           (isEliminatedUser inp.picks shortName, .alreadyEliminated),
           (inp.locked, .windowLocked),
           ((usedTeamsOf inp.picks shortName).contains inp.selectedTeam, .teamAlreadyUsed)])
        (.accept shortName inp.selectedTeam ("Day " ++ toString inp.currentDay))

/-- The test-week order with WindowLocked checked before AlreadyEliminated,
as the source actually does. -/
def lockedFirstOrderTest (roster : List String) (inp : SubmitInput) : SubmitResult :=
  let trimmedFirst := trimStr inp.firstName
  let trimmedInitial := strUpper (trimStr inp.lastInitial)
  if trimmedFirst = "" ∨ trimmedInitial.length ≠ 1 ∨ !isSingleUpper trimmedInitial then
    .reject .malformedName
  else
    let capFirst := capToken trimmedFirst
    let shortName := capFirst ++ " " ++ trimmedInitial
    if strLower capFirst = "stanley" ∧ trimmedInitial = "S" then .adminMode
    else
      applyFirstFailing
        (firstFailingRule
          [(!((roster.map getShortName).contains shortName), .unrecognizedName),
           (inp.locked, .windowLocked),
           (isEliminatedUser inp.picks shortName, .alreadyEliminated),
           ((usedTeamsOf inp.picks shortName).contains inp.selectedTeam, .teamAlreadyUsed)])
        (.accept shortName inp.selectedTeam ("Day " ++ toString inp.currentDay))

/-! ## Persistence: upsert-by-(name, round)
(src/app/page.tsx lines 939-958, update branch at 944-948; identical shape in
src/unnamed/part_001 lines 341-359 and page.tsx lines 1617-1635) -/

/-- `updateDoc(existing.docs[0], { team, timestamp: serverTimestamp() })`
applied to the first document matching the (name, round) query. -/
def updateFirstDoc (n round team : String) (ts : Nat) :
    List Pick → List Pick
  | [] => []
  | p :: ps =>
    if p.name == n && p.round == round then
      { p with team := team, timestamp := some ts } :: ps
    else p :: updateFirstDoc n round team ts ps

/-- The accepted-submission persistence path: query for an existing
(name, round) document; if one exists update only its `team` and `timestamp`
fields, otherwise `addDoc` a fresh pending document. -/
def submitPersist (picks : List Pick) (n team round : String) (ts : Nat)
    (nowIso : String) : List Pick :=
  if picks.any fun p => p.name == n && p.round == round then
    updateFirstDoc n round team ts picks
  else
    picks ++ [{ name := n, team := team, round := round, timestamp := some ts,
                createdAt := some nowIso, status := some .pending }]

/-! ## Sanity examples (concrete evaluations used while tracing the source) -/

example : getShortName "PATRICK gifford" = "Patrick G" := by decide
example : getShortName "patrick GIFFORD" = "Patrick G" := by decide
example : getShortName "Cher" = "Cher" := by decide
example : normalizeTeamName "Ohio State Buckeyes" = "ohiostbuckeyes" := by decide
example : normalizeTeamName "Ohio St" = "ohiost" := by decide
example : teamsMatch "Ohio State" "Ohio St Buckeyes" = true := by decide
example : teamsMatch "Ohio St Buckeyes" "Ohio St" = false := by decide
example : normalizeTeamNameD "Ohio State" = "ohst" := by decide
example : normalizeTeamNameD "Northern Iowa" = "niowa" := by decide
example : getShortNameA "PATRICK gifford" = "PATRICK g" := by decide
example : getShortNameA "Cher" = "Cher C" := by decide

/-! ## Helper lemmas -/

/-- ASCII case folding: uppercasing after lowercasing equals uppercasing. -/
theorem char_toUpper_toLower (c : Char) : c.toLower.toUpper = c.toUpper := by
  obtain ⟨n, hn⟩ : ∃ n, n = c.toNat := ⟨c.toNat, rfl⟩
  by_cases h : 65 ≤ n ∧ n ≤ 90
  · obtain ⟨h1, h2⟩ := h
    have hc : Char.ofNat n = c := by rw [hn]; exact Char.ofNat_toNat c
    subst hc
    interval_cases n <;> decide
  · have hlow : c.toLower = c := by
      simp only [Char.toLower]
      rw [if_neg]
      omega
    rw [hlow]

theorem map_toUpper_toLower (l : List Char) :
    (l.map Char.toLower).map Char.toUpper = l.map Char.toUpper := by
  induction l with
  | nil => rfl
  | cons c cs ih => simp [char_toUpper_toLower, ih]

/-- Capitalizing a token as the source does (uppercase head, lowercase tail)
agrees with the spec's "lowercase it then uppercase its first character". -/
theorem capToken_eq_lower_first (s : String) :
    capToken s = strUpper (takeStr (strLower s) 1) ++ dropStr (strLower s) 1 := by
  unfold capToken strUpper strLower takeStr dropStr
  have h1 : ("" : String).data.map Char.toUpper = [] := rfl
  congr 1
  · show String.mk _ = String.mk _
    rw [← List.map_take, List.map_map]
    congr 1
    exact (List.map_congr_left fun c _ => char_toUpper_toLower c).symm
  · show String.mk _ = String.mk _
    rw [← List.map_drop]

theorem getLastD_map_mk (l : List (List Char)) (d : List Char) :
    ((l.map String.mk).getLastD ⟨d⟩) = ⟨l.getLastD d⟩ := by
  induction l generalizing d with
  | nil => rfl
  | cons x xs ih => simp only [List.map_cons, List.getLastD_cons, ih]

/-- C6 counterexample: the display-only `getShortName` of the first page
variant (src/app/page.tsx lines 195-198, a cited source of the claim)
performs no case normalization: it maps "PATRICK gifford" to "PATRICK g"
and "patrick GIFFORD" to "patrick G", neither of which is "Patrick G". -/
theorem getShortNameA_no_case_normalization :
    getShortNameA "PATRICK gifford" = "PATRICK g" ∧
    getShortNameA "patrick GIFFORD" = "patrick G" ∧
    getShortNameA "PATRICK gifford" ≠ "Patrick G" := by
  exact ⟨by decide, by decide, by decide⟩

/-- C6 (amended): the guarded `getShortName` shared by the submitting page
variants (src/app/page.tsx lines 674-678, src/unnamed/part_001 lines
135-141, part_002 lines 55-59) is deterministic and case-normalizing: on any
full name with at least two whitespace-separated tokens it returns the
capitalized first token, a single space, and the uppercased first character
of the last token (exactly the spec §4.1 algorithm), and in particular maps
both "PATRICK gifford" and "patrick GIFFORD" to "Patrick G"; the display-only
variant at page.tsx lines 195-198 does no case normalization (see the
counterexample). -/
theorem getShortName_case_normalizes (full : String)
    (h : 2 ≤ (splitWs full).length) :
    getShortName full = specShortName full ∧
    getShortName "PATRICK gifford" = "Patrick G" ∧
    getShortName "patrick GIFFORD" = "Patrick G" := by
  refine ⟨?_, by decide, by decide⟩
  unfold splitWs at h
  unfold getShortName specShortName splitWs
  match htoks : tokens full.data with
  | [] => rw [htoks] at h; simp at h
  | [t] => rw [htoks] at h; simp at h
  | t1 :: t2 :: ts =>
    dsimp only
    simp only [List.map_cons, List.headD_cons, List.getLastD_cons]
    rw [capToken_eq_lower_first]
    rw [getLastD_map_mk ts t2]

/-- C6 witness: the two-token hypothesis holds of a concrete roster name and
the theorem then evaluates on it. -/
theorem getShortName_case_normalizes_witness :
    2 ≤ (splitWs "Mike Schwartz").length ∧
    getShortName "Mike Schwartz" = specShortName "Mike Schwartz" := by
  exact ⟨by decide, (getShortName_case_normalizes "Mike Schwartz" (by decide)).1⟩

/-- C8 counterexample: the variant at src/app/page.tsx lines 195-198 (a
cited source of the claim) has no fewer-than-two-tokens guard: it maps the
single-token input "Cher" to "Cher C" instead of returning it unchanged. -/
theorem getShortNameA_no_short_guard :
    getShortNameA "Cher" = "Cher C" ∧ getShortNameA "Cher" ≠ "Cher" := by
  exact ⟨by decide, by decide⟩

/-- C8 (amended): the guarded `getShortName` (src/unnamed/part_001 lines
135-141, src/app/page.tsx lines 674-678, part_002 lines 55-59) returns any
input with fewer than two whitespace-separated tokens unchanged; the
unguarded display-only variant at page.tsx lines 195-198 does not (see the
counterexample). -/
theorem getShortName_short_input (full : String)
    (h : (splitWs full).length < 2) : getShortName full = full := by
  unfold splitWs at h
  unfold getShortName
  match htoks : tokens full.data with
  | [] => rfl
  | [t] => rfl
  | t1 :: t2 :: ts =>
    rw [htoks] at h
    simp only [List.length_map, List.length_cons] at h
    omega

/-- C8 witness: a single-token name is returned unchanged. -/
theorem getShortName_short_input_witness :
    (splitWs "Cher").length < 2 ∧ getShortName "Cher" = "Cher" :=
  ⟨by decide, getShortName_short_input "Cher" (by decide)⟩

/-- C9: the ShortName derivation is injective on the hardcoded 20-entry
roster: mapping `getShortName` over `participantFullNames` yields 20
pairwise-distinct ShortNames, so grouping picks by ShortName attributes each
pick to at most one roster participant. -/
theorem roster_shortNames_nodup :
    (participantFullNames.map getShortName).Nodup ∧
    participantFullNames.length = 20 := by
  constructor
  · decide
  · decide

/-- C2 counterexample: the resolver's game-lookup match is one-directional
(`normalize(liveName).includes(normalize(storedPick))`), so it disagrees with
bidirectional containment and with symmetry: with stored pick
"Ohio St Buckeyes" and live name "Ohio St" the bidirectional rule matches but
the code does not, while the swapped application does. -/
theorem teamsMatch_not_bidirectional :
    teamsMatch "Ohio St" "Ohio St Buckeyes" = true ∧
    teamsMatch "Ohio St Buckeyes" "Ohio St" = false ∧
    teamsMatchSpec "Ohio St Buckeyes" "Ohio St" = true := by
  exact ⟨by decide, by decide, by decide⟩

/-- C2 (amended): the lookup match used by the Outcome Resolver holds only
when the normalized live name contains the normalized stored pick; it implies
the spec's bidirectional containment rule but not conversely, and while the
bidirectional rule is symmetric, the code's lookup match is not (see the
counterexample). -/
theorem teamsMatch_refines_spec :
    (∀ a b, teamsMatch a b = true → teamsMatchSpec a b = true) ∧
    (∀ a b, teamsMatchSpec a b = teamsMatchSpec b a) := by
  constructor
  · intro a b h
    unfold teamsMatchSpec
    unfold teamsMatch at h
    rw [h]
    simp
  · intro a b
    unfold teamsMatchSpec
    rw [Bool.or_comm]

/-- C2 witness: a concrete one-directional match implies the bidirectional
rule, and the bidirectional rule agrees on a swapped concrete pair. -/
theorem teamsMatch_refines_spec_witness :
    teamsMatchSpec "Ohio State" "Ohio St Buckeyes" = true ∧
    teamsMatchSpec "Michigan" "Ohio St" = teamsMatchSpec "Ohio St" "Michigan" :=
  ⟨teamsMatch_refines_spec.1 "Ohio State" "Ohio St Buckeyes" (by decide),
   teamsMatch_refines_spec.2 "Michigan" "Ohio St"⟩

/-! ## Outcome Resolver theorems -/

theorem resolveCoreMain_ne_pending (dateOf : String → String) (games : List Game)
    (round team : String) :
    resolveCoreMain dateOf games round team ≠ some .pending := by
  unfold resolveCoreMain
  split
  · simp
  · split
    · simp
    · dsimp only
      split
      · simp
      · split <;> split <;> simp

theorem resolveOneMain_ne_pending (dateOf : String → String) (games : List Game)
    (p : Pick) : resolveOneMain dateOf games p ≠ some .pending := by
  unfold resolveOneMain
  split
  · simp
  · simp
  · exact resolveCoreMain_ne_pending dateOf games p.round p.team

/-- After a main-resolver pass writes `st` to a pick, the pending guard skips
that pick on the next pass. -/
theorem resolveOneMain_skip_resolved (dateOf : String → String)
    (games : List Game) (p : Pick) (st : PickStatus) (ts : Nat)
    (h : resolveOneMain dateOf games p = some st) :
    resolveOneMain dateOf games
      { p with status := some st, resultAt := some ts } = none := by
  have hst : st = .won ∨ st = .eliminated := by
    cases st with
    | pending => exact absurd h (resolveOneMain_ne_pending dateOf games p)
    | won => exact Or.inl rfl
    | eliminated => exact Or.inr rfl
  rcases hst with rfl | rfl <;> rfl

/-- Scheduled-variant resolver depends on the pick's status only through the
eliminated filter. -/
theorem resolveOneSched_after_write (games : List Game) (p : Pick)
    (st : PickStatus) (ts : Nat) (h : resolveOneSched games p = some st)
    (hne : st ≠ .eliminated) :
    resolveOneSched games
      { p with status := some st, resultAt := some ts } = some st := by
  unfold resolveOneSched at h ⊢
  split at h
  · exact absurd h (by simp)
  · rw [if_neg (by simpa using hne)]
    exact h

/-- A pick touched (or untouched) by a first main-resolver pass yields no
update on a second pass over the same games. -/
theorem resolveOneMain_second_pass (dateOf : String → String)
    (games : List Game) (ts : Nat) (p : Pick) :
    resolveOneMain dateOf games (applyPickMain dateOf games ts p) = none := by
  unfold applyPickMain
  cases h : resolveOneMain dateOf games p with
  | none => exact h
  | some st => exact resolveOneMain_skip_resolved dateOf games p st ts h

/-- C3: `resolvePendingPicks` is idempotent on a fixed (picks, games) input:
after applying the first pass's emitted status updates, the main resolver
(whose pending guard skips picks resolved to `won` or `eliminated`) emits
nothing on a second pass, and every update the scheduled variant emits on a
second pass carries exactly the status the pick already has, so no additional
status transition occurs. -/
theorem resolvePendingPicks_idempotent :
    (∀ (dateOf : String → String) (games : List Game) (ts : Nat)
       (picks : List Pick),
      resolveRunMain dateOf games (applyRunMain dateOf games ts picks) = []) ∧
    (∀ (games : List Game) (ts : Nat) (picks : List Pick),
      (resolveRunSched games (applyRunSched games ts picks)).all
        (fun pr => decide (pr.1.status = some pr.2)) = true) := by
  constructor
  · intro dateOf games ts picks
    induction picks with
    | nil => rfl
    | cons p ps ih =>
      unfold applyRunMain resolveRunMain at ih ⊢
      simp only [List.map_cons, List.filterMap_cons,
        resolveOneMain_second_pass, Option.map_none']
      exact ih
  · intro games ts picks
    induction picks with
    | nil => rfl
    | cons p ps ih =>
      unfold applyRunSched resolveRunSched at ih ⊢
      simp only [List.map_cons, List.filterMap_cons]
      cases h : resolveOneSched games p with
      | none =>
        have h2 : resolveOneSched games (applyPickSched games ts p) = none := by
          unfold applyPickSched
          rw [h]
          exact h
        rw [h2]
        simp only [Option.map_none']
        exact ih
      | some st =>
        by_cases he : st = PickStatus.eliminated
        · subst he
          have h2 : resolveOneSched games (applyPickSched games ts p) = none := by
            unfold applyPickSched
            rw [h]
            rfl
          rw [h2]
          simp only [Option.map_none']
          exact ih
        · have h2 : resolveOneSched games (applyPickSched games ts p) = some st := by
            unfold applyPickSched
            rw [h]
            exact resolveOneSched_after_write games p st ts h he
          have h3 : (applyPickSched games ts p).status = some st := by
            unfold applyPickSched
            rw [h]
          rw [h2]
          simp only [Option.map_some', List.all_cons, h3, decide_eq_true_eq,
            Bool.and_eq_true]
          exact ⟨by simp, ih⟩

/-- C4: for a pending pick whose matched game is final with scores not both
zero, the main resolver emits `won` exactly when the matched side's score
(home when the home name matched the pick, away otherwise) strictly exceeds
the opponent's, and `eliminated` otherwise — in particular a tie resolves to
`eliminated`. -/
theorem resolveMain_outcome (dateOf : String → String) (games : List Game)
    (p : Pick) (g : Game)
    (hp : p.status = none ∨ p.status = some .pending)
    (hg : games.find? (gameMatches p.team (dateOf p.round)) = some g)
    (hfin : isFinalMain g.status = true)
    (hnz : ¬(scoreNum g.homeTeam.score = 0 ∧ scoreNum g.awayTeam.score = 0)) :
    (resolveOneMain dateOf games p = some .won ↔
      (if teamsMatch p.team g.homeTeam.name then
        scoreNum g.awayTeam.score < scoreNum g.homeTeam.score
       else scoreNum g.homeTeam.score < scoreNum g.awayTeam.score)) ∧
    (resolveOneMain dateOf games p = some .eliminated ↔
      (if teamsMatch p.team g.homeTeam.name then
        scoreNum g.homeTeam.score ≤ scoreNum g.awayTeam.score
       else scoreNum g.awayTeam.score ≤ scoreNum g.homeTeam.score)) := by
  have hro : resolveOneMain dateOf games p =
      resolveCoreMain dateOf games p.round p.team := by
    unfold resolveOneMain
    rcases hp with h | h <;> rw [h]
  rw [hro]
  unfold resolveCoreMain
  rw [hg]
  have hcond : ((scoreNum g.homeTeam.score == 0) &&
      (scoreNum g.awayTeam.score == 0)) = false := by
    simpa [Bool.and_eq_true, beq_iff_eq] using hnz
  simp only [hfin, Bool.not_true, Bool.false_eq_true, if_false, hcond]
  cases hh : teamsMatch p.team g.homeTeam.name <;>
    by_cases hab : scoreNum g.awayTeam.score < scoreNum g.homeTeam.score <;>
      by_cases hba : scoreNum g.homeTeam.score < scoreNum g.awayTeam.score <;>
        simp_all

/-- C4 witness: the spec §8 scenario — final game "Ohio St Buckeyes" 70 vs
"Michigan" 65, pending pick "Ohio State" — resolves to `won`. -/
theorem resolveMain_outcome_witness :
    resolveOneMain (fun _ => "2026-01-30")
      [⟨"401", ⟨"Ohio St Buckeyes", "70"⟩, ⟨"Michigan", "65"⟩, "Final", "2026-01-30"⟩]
      { name := "Mike S", team := "Ohio State", round := "Day 1",
        status := some .pending } = some .won :=
  (resolveMain_outcome (fun _ => "2026-01-30")
    [⟨"401", ⟨"Ohio St Buckeyes", "70"⟩, ⟨"Michigan", "65"⟩, "Final", "2026-01-30"⟩]
    { name := "Mike S", team := "Ohio State", round := "Day 1",
      status := some .pending }
    ⟨"401", ⟨"Ohio St Buckeyes", "70"⟩, ⟨"Michigan", "65"⟩, "Final", "2026-01-30"⟩
    (Or.inr rfl) (by decide) (by decide) (by decide)).1.mpr (by decide)

/-- C5: a pending pick whose matched game reports a 0-0 score is never
transitioned — no update is emitted and the pick stays pending — whatever the
status string says, in both resolver variants. -/
theorem resolver_zero_zero_guard :
    (∀ (dateOf : String → String) (games : List Game) (p : Pick) (g : Game),
      p.status = none ∨ p.status = some .pending →
      games.find? (gameMatches p.team (dateOf p.round)) = some g →
      scoreNum g.homeTeam.score = 0 → scoreNum g.awayTeam.score = 0 →
      resolveOneMain dateOf games p = none) ∧
    (∀ (games : List Game) (p : Pick) (di : DayInfo) (g : Game),
      pickDates.find? (fun d => "Day " ++ toString d.day == p.round) = some di →
      games.find? (gameMatchesSched p.team di.date) = some g →
      scoreNum g.homeTeam.score = 0 → scoreNum g.awayTeam.score = 0 →
      resolveOneSched games p = none) := by
  constructor
  · intro dateOf games p g hp hg h0 h0'
    have hro : resolveOneMain dateOf games p =
        resolveCoreMain dateOf games p.round p.team := by
      unfold resolveOneMain
      rcases hp with h | h <;> rw [h]
    rw [hro]
    unfold resolveCoreMain
    rw [hg]
    by_cases hf : isFinalMain g.status <;> simp [hf, h0, h0']
  · intro games p di g hd hg h0 h0'
    unfold resolveOneSched
    split
    · rfl
    · unfold resolveCoreSched
      rw [hd]
      dsimp only
      rw [hg]
      by_cases hf : isFinalSched g.status <;> simp [hf, h0, h0']

/-- C5 witness: a "Final" 0-0 game emits nothing in either variant. -/
theorem resolver_zero_zero_guard_witness :
    resolveOneMain (fun _ => "2026-01-30")
      [⟨"401", ⟨"Duke", "0"⟩, ⟨"UNC", "0"⟩, "Final", "2026-01-30"⟩]
      { name := "Mike S", team := "Duke", round := "Day 1",
        status := some .pending } = none ∧
    resolveOneSched
      [⟨"402", ⟨"Duke", "0"⟩, ⟨"UNC", "0"⟩, "Final", "2026-02-24"⟩]
      { name := "Mike S", team := "Duke", round := "Day 1",
        status := some .pending } = none :=
  ⟨resolver_zero_zero_guard.1 (fun _ => "2026-01-30")
      [⟨"401", ⟨"Duke", "0"⟩, ⟨"UNC", "0"⟩, "Final", "2026-01-30"⟩]
      { name := "Mike S", team := "Duke", round := "Day 1",
        status := some .pending }
      ⟨"401", ⟨"Duke", "0"⟩, ⟨"UNC", "0"⟩, "Final", "2026-01-30"⟩
      (Or.inr rfl) (by decide) (by decide) (by decide),
   resolver_zero_zero_guard.2
      [⟨"402", ⟨"Duke", "0"⟩, ⟨"UNC", "0"⟩, "Final", "2026-02-24"⟩]
      { name := "Mike S", team := "Duke", round := "Day 1",
        status := some .pending }
      ⟨1, "Mon Feb 24", "2026-02-24"⟩
      ⟨"402", ⟨"Duke", "0"⟩, ⟨"UNC", "0"⟩, "Final", "2026-02-24"⟩
      (by decide) (by decide) (by decide) (by decide)⟩

/-! ## Pick Validator theorems -/

theorem applyFirstFailing_four (b1 b2 b3 b4 : Bool) (r1 r2 r3 r4 : RejectReason)
    (acc : SubmitResult) :
    applyFirstFailing
        (firstFailingRule [(b1, r1), (b2, r2), (b3, r3), (b4, r4)]) acc =
      (if b1 then .reject r1 else if b2 then .reject r2 else
       if b3 then .reject r3 else if b4 then .reject r4 else acc) := by
  cases b1 <;> cases b2 <;> cases b3 <;> cases b4 <;> rfl

/-- C1 counterexample: on a submission whose participant is already
eliminated AND whose day is already locked, the test-week variant
(src/unnamed/part_001 lines 294-337, a cited source of the claim) rejects
with WindowLocked, while the claimed order — AlreadyEliminated before
WindowLocked — would reject with AlreadyEliminated. -/
theorem validateTest_order_counterexample :
    validateSubmissionTest participantFullNames
      { firstName := "Mike", lastInitial := "S", selectedTeam := "Kansas",
        currentDay := 1, locked := true,
        picks := [{ name := "Mike S", team := "Duke", round := "Day 1",
                    status := some .eliminated }] } =
      .reject .windowLocked ∧
    claimedOrderTest participantFullNames
      { firstName := "Mike", lastInitial := "S", selectedTeam := "Kansas",
        currentDay := 1, locked := true,
        picks := [{ name := "Mike S", team := "Duke", round := "Day 1",
                    status := some .eliminated }] } =
      .reject .alreadyEliminated := by
  exact ⟨by decide, by decide⟩

/-- C1 (amended): each `handleSubmit` variant rejects with the reason of the
first failing rule of a fixed order, with the admin bypass checked after the
malformed-name rule and before roster membership; the main variant's order is
exactly the claimed MalformedName, UnrecognizedName, AlreadyEliminated,
WindowLocked, TeamAlreadyUsed, while the test-week variant checks
WindowLocked before AlreadyEliminated. -/
theorem validateSubmission_first_failing_order :
    (∀ (roster : List String) (inp : SubmitInput),
      validateSubmissionMain roster inp = claimedOrderMain roster inp) ∧
    (∀ (roster : List String) (inp : SubmitInput),
      validateSubmissionTest roster inp = lockedFirstOrderTest roster inp) := by
  constructor
  · intro roster inp
    unfold validateSubmissionMain claimedOrderMain
    dsimp only
    rw [applyFirstFailing_four]
  · intro roster inp
    unfold validateSubmissionTest lockedFirstOrderTest
    dsimp only
    rw [applyFirstFailing_four]

/-- C7: once a team string already appears among a participant's own picks
(any round), the main validator never accepts it again: the submission is
rejected, and — when every earlier rule passes — the reason is
TeamAlreadyUsed. -/
theorem validateMain_rejects_used_team (roster : List String)
    (inp : SubmitInput)
    (h : inp.selectedTeam ∈
      usedTeamsOf inp.picks (mainShortName inp.firstName inp.lastInitial)) :
    (validateSubmissionMain roster inp).isAccept = false ∧
    (¬(trimStr inp.firstName = "" ∨ inp.lastInitial.length ≠ 1) →
     strLower (mainShortName inp.firstName inp.lastInitial) ≠ "stanley s" →
     (roster.any fun f =>
       getShortName f == mainShortName inp.firstName inp.lastInitial) = true →
     isEliminatedUser inp.picks
       (mainShortName inp.firstName inp.lastInitial) = false →
     inp.locked = false →
     validateSubmissionMain roster inp = .reject .teamAlreadyUsed) := by
  have hcont : (usedTeamsOf inp.picks
      (mainShortName inp.firstName inp.lastInitial)).contains
        inp.selectedTeam = true := by
    simpa using h
  constructor
  · unfold validateSubmissionMain
    dsimp only
    split
    · rfl
    · split
      · rfl
      · split
        · rfl
        · split
          · rfl
          · split
            · rfl
            · rfl
  · intro h1 h2 h3 h4 h5
    unfold validateSubmissionMain
    dsimp only
    rw [if_neg h1, if_neg h2, if_neg (by simp [h3]), if_neg (by simp [h4]),
      if_neg (by simp [h5]), if_pos hcont]

/-- C7 witness: the spec §8 scenario — a prior Day 1 pick of Duke blocks a
Day 2 submission of Duke with TeamAlreadyUsed. -/
theorem validateMain_rejects_used_team_witness :
    (validateSubmissionMain participantFullNames
      { firstName := "Mike", lastInitial := "S", selectedTeam := "Duke",
        currentDay := 2, locked := false,
        picks := [{ name := "Mike S", team := "Duke", round := "Day 1",
                    status := some .pending }] }).isAccept = false ∧
    validateSubmissionMain participantFullNames
      { firstName := "Mike", lastInitial := "S", selectedTeam := "Duke",
        currentDay := 2, locked := false,
        picks := [{ name := "Mike S", team := "Duke", round := "Day 1",
                    status := some .pending }] } = .reject .teamAlreadyUsed :=
  ⟨(validateMain_rejects_used_team participantFullNames
      { firstName := "Mike", lastInitial := "S", selectedTeam := "Duke",
        currentDay := 2, locked := false,
        picks := [{ name := "Mike S", team := "Duke", round := "Day 1",
                    status := some .pending }] } (by decide)).1,
   (validateMain_rejects_used_team participantFullNames
      { firstName := "Mike", lastInitial := "S", selectedTeam := "Duke",
        currentDay := 2, locked := false,
        picks := [{ name := "Mike S", team := "Duke", round := "Day 1",
                    status := some .pending }] } (by decide)).2
     (by decide) (by decide) (by decide) (by decide) (by decide)⟩

/-! ## Persistence theorems -/

/-- C10: when an accepted submission updates an existing (name, round)
document, the store keeps the same documents: every document is either
byte-for-byte unchanged or is the updated one, whose `team` becomes the
submitted team and `timestamp` the fresh server timestamp while its `name`,
`round`, `createdAt`, `status` (and `resultAt`) are unchanged. -/
theorem submitPersist_update_frame (picks : List Pick) (n team round : String)
    (ts : Nat) (nowIso : String)
    (h : (picks.any fun p => p.name == n && p.round == round) = true) :
    List.Forall₂ (fun old new => new = old ∨
      (new.name = old.name ∧ new.round = old.round ∧
       new.createdAt = old.createdAt ∧ new.status = old.status ∧
       new.resultAt = old.resultAt ∧ new.team = team ∧
       new.timestamp = some ts))
      picks (submitPersist picks n team round ts nowIso) := by
  unfold submitPersist
  rw [if_pos h]
  clear h
  induction picks with
  | nil => exact List.Forall₂.nil
  | cons p ps ih =>
    unfold updateFirstDoc
    split
    · exact List.Forall₂.cons
        (Or.inr ⟨rfl, rfl, rfl, rfl, rfl, rfl, rfl⟩)
        (List.forall₂_same.mpr fun x _ => Or.inl rfl)
    · exact List.Forall₂.cons (Or.inl rfl) ih

/-- C10 witness: updating an existing Day 1 pick from Duke to Kansas changes
only the team and timestamp of that document. -/
theorem submitPersist_update_frame_witness :
    List.Forall₂ (fun old new => new = old ∨
      (new.name = old.name ∧ new.round = old.round ∧
       new.createdAt = old.createdAt ∧ new.status = old.status ∧
       new.resultAt = old.resultAt ∧ new.team = "Kansas" ∧
       new.timestamp = some 2))
      [{ name := "Mike S", team := "Duke", round := "Day 1",
         timestamp := some 1, createdAt := some "2026-01-29T18:00:00.000Z",
         status := some .pending }]
      (submitPersist
        [{ name := "Mike S", team := "Duke", round := "Day 1",
           timestamp := some 1, createdAt := some "2026-01-29T18:00:00.000Z",
           status := some .pending }]
        "Mike S" "Kansas" "Day 1" 2 "2026-01-30T10:00:00.000Z") :=
  submitPersist_update_frame
    [{ name := "Mike S", team := "Duke", round := "Day 1",
       timestamp := some 1, createdAt := some "2026-01-29T18:00:00.000Z",
       status := some .pending }]
    "Mike S" "Kansas" "Day 1" 2 "2026-01-30T10:00:00.000Z" (by decide)

end Survivor
